import Mathlib

/-!
# Verification of the Eclipsera game core (`src/index.py`)

A shallow embedding of the game's core logic: the serial-line FIFO
(`SerialReader`), the telemetry line parser (`parse_serial_line`), the
gesture interpreter and debounced character switching, the per-tick
physics/collision update, round initialisation (`init_game`), and the
Menu/Play/Pause/GameOver state machine of `main`.

Conventions of the embedding:
* Python ints are `Int`; wall-clock timestamps (`time.time()`) and the
  float obstacle velocities (`random.uniform`) are `ℚ`.
* Distances computed in the source as `(dx**2 + dy**2)**0.5` and compared
  with `<` against a nonnegative integer bound `t` are embedded in the
  equivalent squared form `dx^2 + dy^2 < t^2` (both sides of the source
  comparison are nonnegative, so squaring is an order isomorphism).
* Randomness (`random.randint`, `random.random`, `random.uniform`,
  `random.choice`) is embedded as explicit oracle arguments: `randint`
  maps a seed into the inclusive range exactly as the library call
  guarantees, and draws of `random.random()` are rationals compared
  against the same thresholds as the source.
* `pygame.Rect` stores integer coordinates; assigning a float truncates
  toward zero, embedded by `truncToInt` below.
-/

/-! ## Configuration constants (src/index.py lines 11-42) -/

def WIDTH : Int := 900
def HEIGHT : Int := 600
def FPS : Nat := 30
def AX_POS_THRESHOLD : Int := 2000
def AX_NEG_THRESHOLD : Int := -2000
def AY_POS_THRESHOLD : Int := 2000
def AY_NEG_THRESHOLD : Int := -2000
def SWITCH_DEBOUNCE : ℚ := mkRat 1 2
def SHAKE_THRESHOLD : Int := 15000
def BALL_RADIUS : Int := 25
def BALL_SPEED : Int := 5
def COIN_RADIUS : Int := 15
def POWERUP_CHANCE : ℚ := mkRat 18 100
def POWERUP_DURATION : ℚ := 6
def OBSTACLE_COUNT : Nat := 3
def OBSTACLE_MIN_SPEED : ℚ := 2
def OBSTACLE_MAX_SPEED : ℚ := 4
def GAME_DURATION : ℚ := 60
def QUEUE_MAXLEN : Nat := 100

/-! ## SerialReader queue (src/index.py lines 48-90)

The reader thread appends lines at the right end of a
`deque(maxlen=100)`; on overflow the deque drops from the left (oldest).
`get_latest` pops from the right end: the most recently pushed line. -/

/-- `deque.append` with `maxlen=100`: append on the right, evicting the
oldest (leftmost) entry when the capacity is exceeded. The list head is
the oldest entry. -/
def pushLine (q : List String) (l : String) : List String :=
  let q' := q ++ [l]
  if QUEUE_MAXLEN < q'.length then q'.drop (q'.length - QUEUE_MAXLEN) else q'

/-- `SerialReader.get_latest` (line 90): `self.queue.pop() if self.queue
else None` — returns the most recently pushed line and removes it;
older lines stay in the deque. -/
def getLatest (q : List String) : Option String × List String :=
  match q.getLast? with
  | none => (none, q)
  | some l => (some l, q.dropLast)

/-! ## Line parser (src/index.py lines 135-158)

Tokens are handled as `List Char` so that every operation is
structurally recursive (Python's `str.split` and `str.strip` are
embedded by `splitOnComma` and `pstrip`). -/

/-- Python `line.split(",")`: split a character list at every comma.
`"".split(",") == [""]`, so the empty input yields one empty token. -/
def splitOnComma (cs : List Char) : List (List Char) :=
  match cs with
  | [] => [[]]
  | c :: rest =>
    let r := splitOnComma rest
    if c = ',' then [] :: r
    else
      match r with
      | t :: ts => (c :: t) :: ts
      | [] => [[c]]

/-- The whitespace characters removed by Python's `str.strip()`. -/
def isPySpace (c : Char) : Bool :=
  c = ' ' ∨ c = '\t' ∨ c = '\n' ∨ c = '\r' ∨ c = '\x0b' ∨ c = '\x0c'

/-- Python `token.strip()`: drop leading and trailing whitespace. -/
def pstrip (cs : List Char) : List Char :=
  ((cs.dropWhile isPySpace).reverse.dropWhile isPySpace).reverse

/-- Digit run to a number: helper for `parseInt?`. -/
def digitsToNat? (cs : List Char) : Option Nat :=
  match cs with
  | [] => none
  | _ =>
    if cs.all Char.isDigit then
      some (cs.foldl (fun n c => 10 * n + (c.toNat - 48)) 0)
    else none

/-- Python `int(token)` on an already-stripped token: an optional single
sign followed by at least one decimal digit. -/
def parseInt? (cs : List Char) : Option Int :=
  match cs with
  | '-' :: rest => (digitsToNat? rest).map (fun n => -(n : Int))
  | '+' :: rest => (digitsToNat? rest).map (fun n => (n : Int))
  | _ => (digitsToNat? cs).map (fun n => (n : Int))

/-- The structured sensor sample returned by `parse_serial_line`. -/
structure SensorSample where
  ax : Int
  ay : Int
  az : Int
  btn : Option Int
  deriving DecidableEq

/-- The token list `[p.strip() for p in line.split(",") if p.strip() != ""]`
of line 142. -/
def serialTokens (line : String) : List (List Char) :=
  ((splitOnComma line.toList).map pstrip).filter (fun p => p ≠ [])

/-- `parse_serial_line` (lines 135-158): split on commas, drop empty
tokens, fail if fewer than 3 tokens or the first three are not integers;
a fourth token becomes the optional button value, absent when it does
not parse; further tokens are ignored. -/
def parse_serial_line (line : String) : Option SensorSample :=
  match serialTokens line with
  | p0 :: p1 :: p2 :: rest =>
    match parseInt? p0, parseInt? p1, parseInt? p2 with
    | some ax, some ay, some az =>
      let btn : Option Int :=
        match rest with
        | p3 :: _ => parseInt? p3
        | [] => none
      some { ax := ax, ay := ay, az := az, btn := btn }
    | _, _, _ => none
  | _ => none

/-! ## Gesture interpreter (src/index.py lines 286-306) -/

/-- Horizontal sensor delta (lines 286-291): `move_dx = 0`, then
`+BALL_SPEED` when `ax > AX_POS_THRESHOLD`, `-BALL_SPEED` when
`ax < AX_NEG_THRESHOLD`. -/
def sensorDX (ax : Int) : Int :=
  if AX_POS_THRESHOLD < ax then BALL_SPEED
  else if ax < AX_NEG_THRESHOLD then -BALL_SPEED
  else 0

/-- Vertical sensor delta (lines 292-295): `ay` above the positive
threshold moves up (`move_dy -= BALL_SPEED`), below the negative one
moves down. -/
def sensorDY (ay : Int) : Int :=
  if AY_POS_THRESHOLD < ay then -BALL_SPEED
  else if ay < AY_NEG_THRESHOLD then BALL_SPEED
  else 0

/-- The character-switch locals of `main`: `current_char` (line 192) and
`last_switch` (line 193). -/
structure SwitchState where
  currentChar : Nat
  lastSwitch : ℚ
  deriving DecidableEq

/-- Number of characters: `len(characters)` for the fixed 3-entry list
of lines 187-191. -/
def charCount : Nat := 3

/-- Character switching (lines 297-306) with the `switched` flag made
explicit in the result: the button trigger (`btn == 1` under debounce)
takes priority; the shake trigger (`abs(az) > SHAKE_THRESHOLD` under
debounce) runs only when the button trigger did not fire. The boolean
records whether a switch occurred. -/
def processSwitchF (st : SwitchState) (btn : Option Int) (az : Int) (now : ℚ) :
    SwitchState × Bool :=
  if btn = some 1 ∧ SWITCH_DEBOUNCE < now - st.lastSwitch then
    (⟨(st.currentChar + 1) % charCount, now⟩, true)
  else if SHAKE_THRESHOLD < |az| ∧ SWITCH_DEBOUNCE < now - st.lastSwitch then
    (⟨(st.currentChar + 1) % charCount, now⟩, true)
  else (st, false)

/-- The switch state after processing one sample. -/
def processSwitch (st : SwitchState) (btn : Option Int) (az : Int) (now : ℚ) :
    SwitchState :=
  (processSwitchF st btn az now).1

/-! ## Characters (src/index.py lines 187-191) -/

/-- One entry of the `characters` list: name, RGB color, mutable radius. -/
structure Character where
  name : String
  color : Int × Int × Int
  radius : Int
  deriving DecidableEq

/-- The fixed character list created at startup. -/
def charactersInit : List Character :=
  [ { name := "Green", color := (60, 200, 80), radius := BALL_RADIUS },
    { name := "Blue", color := (60, 140, 220), radius := BALL_RADIUS },
    { name := "Orange", color := (255, 165, 60), radius := BALL_RADIUS } ]

/-- In-place update `characters[i]["radius"] = r`. -/
def setRadius : List Character → Nat → Int → List Character
  | [], _, _ => []
  | c :: cs, 0, r => { c with radius := r } :: cs
  | c :: cs, n + 1, r => c :: setRadius cs n r

/-! ## Obstacles (src/index.py lines 95-111) -/

/-- `pygame.Rect`: integer position and size. -/
structure Rect where
  x : Int
  y : Int
  w : Int
  h : Int
  deriving DecidableEq

/-- An obstacle: rectangle plus float velocity (`random.uniform` values). -/
structure Obstacle where
  rect : Rect
  vx : ℚ
  vy : ℚ
  deriving DecidableEq

/-- Assigning a float to a `pygame.Rect` coordinate truncates it toward
zero (C `int` conversion). Since the denominator of a rational is
positive, `Int.div` (T-division) is exactly that truncation. -/
def truncToInt (q : ℚ) : Int := q.num.tdiv (q.den : Int)

/-- `Obstacle.update` (lines 101-111): move by the velocity, then bounce
on each screen edge independently — flip that axis's velocity sign and
clamp the position back inside the screen. -/
def Obstacle.update (o : Obstacle) : Obstacle :=
  let x1 := truncToInt ((o.rect.x : ℚ) + o.vx)
  let y1 := truncToInt ((o.rect.y : ℚ) + o.vy)
  let bounceX : Bool := x1 < 0 ∨ WIDTH < x1 + o.rect.w
  let bounceY : Bool := y1 < 0 ∨ HEIGHT < y1 + o.rect.h
  { rect :=
      { x := if bounceX then max 0 (min x1 (WIDTH - o.rect.w)) else x1
        y := if bounceY then max 0 (min y1 (HEIGHT - o.rect.h)) else y1
        w := o.rect.w
        h := o.rect.h }
    vx := if bounceX then -o.vx else o.vx
    vy := if bounceY then -o.vy else o.vy }

/-! ## Collision tests (src/index.py lines 329-331 and 358-370) -/

/-- Squared Euclidean distance between two integer points. -/
def sqDist (x1 y1 x2 y2 : Int) : Int := (x1 - x2) ^ 2 + (y1 - y2) ^ 2

/-- The narrow-phase circle-vs-rectangle test of lines 367-370: clamp
the ball center to the rectangle (the closest point) and compare the
distance against the radius. The source computes
`d = (dx**2 + dy**2)**0.5` and tests `d < radius`; for a nonnegative
radius this is equivalent to the squared comparison used here. -/
def collidesPlain (bx bY r : Int) (rc : Rect) : Bool :=
  let cx := max rc.x (min bx (rc.x + rc.w))
  let cy := max rc.y (min bY (rc.y + rc.h))
  decide (sqDist bx bY cx cy < r ^ 2)

/-- The full collision test of lines 358-370: broad-phase rejection on
each axis (`circle_dist_x > rect.width/2 + radius`, with
`rect.centerx = x + w // 2` and exact float halving of the width,
embedded by multiplying the comparison by 2), then the narrow-phase
closest-point test. -/
def collisionCheck (bx bY r : Int) (rc : Rect) : Bool :=
  if rc.w + 2 * r < 2 * |bx - (rc.x + rc.w / 2)| then false
  else if rc.h + 2 * r < 2 * |bY - (rc.y + rc.h / 2)| then false
  else collidesPlain bx bY r rc

/-! ## Randomness oracles -/

/-- `random.randint(lo, hi)`: inclusive uniform range, embedded as a seed
mapped into `[lo, hi]`. -/
def randint (lo hi : Int) (seed : Nat) : Int :=
  lo + (seed % (hi - lo + 1).toNat : Nat)

/-- `random.uniform(lo, hi)`: `lo + (hi - lo) * u` for a draw
`u ∈ [0, 1]`. -/
def uniform (lo hi : ℚ) (u : ℚ) : ℚ := lo + (hi - lo) * u

/-- `random.choice([-1, 1])`. -/
def choiceSign (b : Bool) : ℚ := if b then 1 else -1

/-- The random draws consumed when spawning one obstacle
(lines 220-225). -/
structure ObsRand where
  sw : Nat
  sh : Nat
  sx : Nat
  sy : Nat
  dirx : Bool
  diry : Bool
  ux : ℚ
  uy : ℚ

/-- The random draws consumed by `init_game` (lines 212-225). -/
structure InitRand where
  cx : Nat
  cy : Nat
  u : ℚ
  obs : Nat → ObsRand

/-- The random draws consumed by one Play-state tick (coin respawn,
lines 346-348). -/
structure TickRand where
  cx : Nat
  cy : Nat
  u : ℚ

/-! ## The game state (locals of `main`, src/index.py lines 161-243) -/

/-- The four values of the string-tagged state machine. -/
inductive GState where
  | Menu
  | Play
  | Pause
  | GameOver
  deriving DecidableEq

/-- All mutable locals of `main` that the core loop touches. -/
structure Game where
  running : Bool
  state : GState
  chars : List Character
  sw : SwitchState
  ballX : Int
  ballY : Int
  score : Nat
  coinX : Int
  coinY : Int
  coinSpecial : Bool
  powerActive : Bool
  powerEndsAt : ℚ
  obstacles : List Obstacle
  startTime : ℚ
  gameOverTime : ℚ
  moveDX : Int
  moveDY : Int

/-- `chars[i]["radius"]` (out-of-range access returns a junk value; the
in-bounds invariant is proved separately). -/
def radiusAt (cs : List Character) (i : Nat) : Int :=
  match cs.get? i with
  | some c => c.radius
  | none => 0

/-- `characters[current_char]["radius"]`. -/
def curRadius (g : Game) : Int := radiusAt g.chars g.sw.currentChar

/-- One obstacle spawned by `init_game` (lines 220-226). -/
def mkObstacle (s : ObsRand) : Obstacle :=
  let w := randint 30 70 s.sw
  let h := randint 30 50 s.sh
  { rect := { x := randint 0 (WIDTH - w) s.sx, y := randint 0 (HEIGHT - h) s.sy
              w := w, h := h }
    vx := choiceSign s.dirx * uniform OBSTACLE_MIN_SPEED OBSTACLE_MAX_SPEED s.ux
    vy := choiceSign s.diry * uniform OBSTACLE_MIN_SPEED OBSTACLE_MAX_SPEED s.uy }

/-- `init_game` (lines 205-227): recenter the ball, zero the score,
spawn a coin and `OBSTACLE_COUNT` obstacles, clear the power-up flag and
deadline, and restart the round clock. The `characters` list (and so any
enlarged radius), `current_char` and `last_switch` are not touched. -/
def initGame (g : Game) (now : ℚ) (r : InitRand) : Game :=
  { g with
    ballX := WIDTH / 2
    ballY := HEIGHT / 2
    score := 0
    coinX := randint COIN_RADIUS (WIDTH - COIN_RADIUS) r.cx
    coinY := randint COIN_RADIUS (HEIGHT - COIN_RADIUS) r.cy
    coinSpecial := decide (r.u < POWERUP_CHANCE)
    powerActive := false
    powerEndsAt := 0
    obstacles := (List.range OBSTACLE_COUNT).map (fun i => mkObstacle (r.obs i))
    startTime := now }

/-- The state of `main` just before the game loop (lines 187-243):
state `MENU`, the fixed character list, `current_char = 0`,
`last_switch = 0.0`, `move_dx = move_dy = 0`, then one `init_game()`
call (line 229). -/
def baseGame : Game :=
  { running := true
    state := GState.Menu
    chars := charactersInit
    sw := { currentChar := 0, lastSwitch := 0 }
    ballX := 0, ballY := 0, score := 0
    coinX := 0, coinY := 0, coinSpecial := false
    powerActive := false, powerEndsAt := 0
    obstacles := [], startTime := 0, gameOverTime := 0
    moveDX := 0, moveDY := 0 }

/-- The game state as the loop first runs, for a start wall-clock `now`
and the startup random draws. -/
def initialGame (now : ℚ) (r : InitRand) : Game := initGame baseGame now r

/-! ## Keyboard events (src/index.py lines 248-273) -/

/-- The keys the event handler distinguishes. -/
inductive Key where
  | ret
  | esc
  | p
  | other
  deriving DecidableEq

/-- One `KEYDOWN` event (lines 251-273). `RETURN` in Menu/GameOver sets
the state to `PLAY` and then runs `init_game()`; `P` toggles
Play/Pause; `ESCAPE` quits from Menu and returns to Menu elsewhere. -/
def handleKey (g : Game) (k : Key) (now : ℚ) (r : InitRand) : Game :=
  match g.state with
  | GState.Menu =>
    match k with
    | Key.ret => initGame { g with state := GState.Play } now r
    | Key.esc => { g with running := false }
    | _ => g
  | GState.Play =>
    match k with
    | Key.p => { g with state := GState.Pause }
    | Key.esc => { g with state := GState.Menu }
    | _ => g
  | GState.Pause =>
    match k with
    | Key.p => { g with state := GState.Play }
    | Key.esc => { g with state := GState.Menu }
    | _ => g
  | GState.GameOver =>
    match k with
    | Key.ret => initGame { g with state := GState.Play } now r
    | Key.esc => { g with state := GState.Menu }
    | _ => g

/-! ## Serial input processing and keyboard fallback
(src/index.py lines 276-317) -/

/-- The held-key snapshot `pygame.key.get_pressed()`. -/
structure Keys where
  left : Bool
  right : Bool
  up : Bool
  down : Bool
  deriving DecidableEq

/-- No arrow key held. -/
def noKeys : Keys := { left := false, right := false, up := false, down := false }

/-- Lines 276-317: if a line was fetched and is non-empty (`if
latest_line:`) and parses, overwrite `move_dx`/`move_dy` with the sensor
deltas and run the character-switch logic; otherwise `move_dx`/`move_dy`
keep their previous values. Then the held arrow keys add
`±BALL_SPEED` on top. -/
def processInput (g : Game) (latest : Option String) (keys : Keys) (now : ℚ) :
    Game :=
  let g1 :=
    match latest with
    | none => g
    | some line =>
      if line = "" then g
      else
        match parse_serial_line line with
        | none => g
        | some s =>
          { g with
            moveDX := sensorDX s.ax
            moveDY := sensorDY s.ay
            sw := processSwitch g.sw s.btn s.az now }
  let dx := if keys.left then g1.moveDX - BALL_SPEED else g1.moveDX
  let dx := if keys.right then dx + BALL_SPEED else dx
  let dy := if keys.up then g1.moveDY - BALL_SPEED else g1.moveDY
  let dy := if keys.down then dy + BALL_SPEED else dy
  { g1 with moveDX := dx, moveDY := dy }

/-! ## The Play-state update (src/index.py lines 320-381), in source
order: ball movement and clamping, coin pickup, power-up timeout,
obstacle update with collision, round timer. -/

/-- Lines 322-327: apply the movement deltas and clamp the ball inside
the screen using the current character's radius. -/
def Game.moveBall (g : Game) : Game :=
  let r := curRadius g
  { g with
    ballX := max r (min (WIDTH - r) (g.ballX + g.moveDX))
    ballY := max r (min (HEIGHT - r) (g.ballY + g.moveDY)) }

/-- Lines 329-348: coin pickup. Collect when the center distance is
below `radius + COIN_RADIUS` (squared form). A special coin awards 5
points, arms the power-up until `now + POWERUP_DURATION` and sets the
current character's radius to `BALL_RADIUS + 8`; an ordinary coin awards
1 point. Either way a new coin is drawn. -/
def Game.coinStep (g : Game) (now : ℚ) (r : TickRand) : Game :=
  if sqDist g.ballX g.ballY g.coinX g.coinY < (curRadius g + COIN_RADIUS) ^ 2 then
    let g1 :=
      if g.coinSpecial then
        { g with
          score := g.score + 5
          powerActive := true
          powerEndsAt := now + POWERUP_DURATION
          chars := setRadius g.chars g.sw.currentChar (BALL_RADIUS + 8) }
      else { g with score := g.score + 1 }
    { g1 with
      coinX := randint COIN_RADIUS (WIDTH - COIN_RADIUS) r.cx
      coinY := randint COIN_RADIUS (HEIGHT - COIN_RADIUS) r.cy
      coinSpecial := decide (r.u < POWERUP_CHANCE) }
  else g

/-- Lines 350-353: power-up timeout. When the power-up is active and
`now >= power_ends_at`, deactivate it and restore the *current*
character's radius to the base value. -/
def Game.powerStep (g : Game) (now : ℚ) : Game :=
  if g.powerActive = true ∧ g.powerEndsAt ≤ now then
    { g with
      powerActive := false
      chars := setRadius g.chars g.sw.currentChar BALL_RADIUS }
  else g

/-- Lines 355-375: every obstacle moves, and each updated obstacle is
tested against the ball; any hit sets the state to `GAMEOVER` (and
records the time). The loop does not stop at the first hit, but further
assignments of `GAMEOVER` are indistinguishable from the first. -/
def Game.obstacleStep (g : Game) (now : ℚ) : Game :=
  let obs := g.obstacles.map Obstacle.update
  let hit := obs.any (fun o => collisionCheck g.ballX g.ballY (curRadius g) o.rect)
  { g with
    obstacles := obs
    state := if hit then GState.GameOver else g.state
    gameOverTime := if hit then now else g.gameOverTime }

/-- Lines 377-381: the round timer. When `now - start_time` reaches
`GAME_DURATION` the state becomes `GAMEOVER`. -/
def Game.timerStep (g : Game) (now : ℚ) : Game :=
  if GAME_DURATION ≤ now - g.startTime then
    { g with state := GState.GameOver, gameOverTime := now }
  else g

/-- The phases of the Play-state update that precede the obstacle loop. -/
def Game.prePhase (g : Game) (now : ℚ) (r : TickRand) : Game :=
  ((g.moveBall).coinStep now r).powerStep now

/-- The whole `if state == STATE_PLAY:` block (lines 320-381): a no-op
in any other state. -/
def playTick (g : Game) (now : ℚ) (r : TickRand) : Game :=
  if g.state = GState.Play then
    ((g.prePhase now r).obstacleStep now).timerStep now
  else g

/-! ## Helper lemmas: what each Play-tick phase leaves untouched -/

theorem coinStep_state (g : Game) (now : ℚ) (r : TickRand) :
    (g.coinStep now r).state = g.state := by
  unfold Game.coinStep; split_ifs <;> rfl

theorem coinStep_obstacles (g : Game) (now : ℚ) (r : TickRand) :
    (g.coinStep now r).obstacles = g.obstacles := by
  unfold Game.coinStep; split_ifs <;> rfl

theorem coinStep_startTime (g : Game) (now : ℚ) (r : TickRand) :
    (g.coinStep now r).startTime = g.startTime := by
  unfold Game.coinStep; split_ifs <;> rfl

theorem powerStep_state (g : Game) (now : ℚ) : (g.powerStep now).state = g.state := by
  unfold Game.powerStep; split_ifs <;> rfl

theorem powerStep_obstacles (g : Game) (now : ℚ) :
    (g.powerStep now).obstacles = g.obstacles := by
  unfold Game.powerStep; split_ifs <;> rfl

theorem powerStep_startTime (g : Game) (now : ℚ) :
    (g.powerStep now).startTime = g.startTime := by
  unfold Game.powerStep; split_ifs <;> rfl

theorem prePhase_state (g : Game) (now : ℚ) (r : TickRand) :
    (g.prePhase now r).state = g.state := by
  unfold Game.prePhase; rw [powerStep_state, coinStep_state]; rfl

theorem prePhase_obstacles (g : Game) (now : ℚ) (r : TickRand) :
    (g.prePhase now r).obstacles = g.obstacles := by
  unfold Game.prePhase; rw [powerStep_obstacles, coinStep_obstacles]; rfl

theorem prePhase_startTime (g : Game) (now : ℚ) (r : TickRand) :
    (g.prePhase now r).startTime = g.startTime := by
  unfold Game.prePhase; rw [powerStep_startTime, coinStep_startTime]; rfl

theorem obstacleStep_state (g : Game) (now : ℚ) : (g.obstacleStep now).state =
    (if (g.obstacles.map Obstacle.update).any
        (fun o => collisionCheck g.ballX g.ballY (curRadius g) o.rect)
     then GState.GameOver else g.state) := rfl

theorem obstacleStep_startTime (g : Game) (now : ℚ) :
    (g.obstacleStep now).startTime = g.startTime := rfl

theorem timerStep_state (g : Game) (now : ℚ) : (g.timerStep now).state =
    (if GAME_DURATION ≤ now - g.startTime then GState.GameOver else g.state) := by
  unfold Game.timerStep; split_ifs <;> rfl

theorem update_rect_w (o : Obstacle) : (Obstacle.update o).rect.w = o.rect.w := rfl

theorem update_rect_h (o : Obstacle) : (Obstacle.update o).rect.h = o.rect.h := rfl

/-! ## Broad-phase soundness

If the axis-aligned broad-phase test of lines 359-364 rejects an
obstacle, the closest point of its rectangle is at least one radius away
from the ball center. The source compares the distance between the ball
center and `rect.centerx = x + w // 2` (floor division) against
`w/2 + r` (exact float halving); because every quantity is an integer,
the half-unit slack between the two halvings cannot create a missed
collision. -/

theorem closestFar (bx x w r : Int) (hw : 0 ≤ w)
    (h : w + 2 * r < 2 * |bx - (x + w / 2)|) :
    r ≤ |bx - max x (min bx (x + w))| := by
  rcases le_total bx x with h5 | h5
  · have hcx : max x (min bx (x + w)) = x := by
      rw [min_eq_left (by omega), max_eq_left h5]
    rw [hcx, abs_of_nonpos (by omega)]
    rcases abs_cases (bx - (x + w / 2)) with ⟨h1, _⟩ | ⟨h1, _⟩ <;> rw [h1] at h <;> omega
  · rcases le_total (x + w) bx with h6 | h6
    · have hcx : max x (min bx (x + w)) = x + w := by
        rw [min_eq_right h6, max_eq_right (by omega)]
      rw [hcx, abs_of_nonneg (by omega)]
      rcases abs_cases (bx - (x + w / 2)) with ⟨h1, _⟩ | ⟨h1, _⟩ <;> rw [h1] at h <;> omega
    · have hcx : max x (min bx (x + w)) = bx := by
        rw [min_eq_left h6, max_eq_right h5]
      rw [hcx]
      rcases abs_cases (bx - (x + w / 2)) with ⟨h1, _⟩ | ⟨h1, _⟩ <;> rw [h1] at h <;>
        simp <;> omega

/-- The broad-phase + narrow-phase collision test of lines 358-370
agrees exactly with the plain closest-point circle-vs-rectangle test:
the cheap rejection neither misses a collision nor reports a spurious
one. -/
theorem collisionCheck_eq_collidesPlain (bx bY r : Int) (rc : Rect)
    (hw : 0 ≤ rc.w) (hh : 0 ≤ rc.h) (hr : 0 ≤ r) :
    collisionCheck bx bY r rc = collidesPlain bx bY r rc := by
  unfold collisionCheck
  split_ifs with h1 h2
  · symm
    simp only [collidesPlain, sqDist, decide_eq_false_iff_not, not_lt]
    have hx := closestFar bx rc.x rc.w r hw h1
    have hsq : r ^ 2 ≤ (bx - max rc.x (min bx (rc.x + rc.w))) ^ 2 := by
      calc r ^ 2 ≤ |bx - max rc.x (min bx (rc.x + rc.w))| ^ 2 :=
            pow_le_pow_left₀ hr hx 2
        _ = _ := sq_abs _
    nlinarith [sq_nonneg (bY - max rc.y (min bY (rc.y + rc.h)))]
  · symm
    simp only [collidesPlain, sqDist, decide_eq_false_iff_not, not_lt]
    have hy := closestFar bY rc.y rc.h r hh h2
    have hsq : r ^ 2 ≤ (bY - max rc.y (min bY (rc.y + rc.h))) ^ 2 := by
      calc r ^ 2 ≤ |bY - max rc.y (min bY (rc.y + rc.h))| ^ 2 :=
            pow_le_pow_left₀ hr hy 2
        _ = _ := sq_abs _
    nlinarith [sq_nonneg (bx - max rc.x (min bx (rc.x + rc.w)))]
  · rfl

/-! ## Claim C2 -/

/-- **C2.** In Play, a tick ends in `GameOver` exactly when, after the
tick's ball movement, coin/power phases and obstacle updates, the round
clock has reached `GAME_DURATION` or some updated obstacle's closest
point is strictly within the current character's radius of the ball
center (the plain circle-vs-rectangle test); the broad-phase axis
rejection followed by the narrow-phase test is equivalent to the plain
test; from Play a tick can only stay in Play or move to GameOver, and
in any non-Play state the tick is a no-op, so the Play-to-GameOver
transition happens exactly once and cannot double-fire. -/
theorem c2_play_to_gameover (g : Game) (now : ℚ) (r : TickRand)
    (hplay : g.state = GState.Play)
    (hdims : ∀ o ∈ g.obstacles, 0 ≤ o.rect.w ∧ 0 ≤ o.rect.h)
    (hrad : 0 ≤ curRadius (g.prePhase now r)) :
    ((playTick g now r).state = GState.GameOver ↔
      (GAME_DURATION ≤ now - g.startTime ∨
       ∃ o ∈ g.obstacles,
         collidesPlain (g.prePhase now r).ballX (g.prePhase now r).ballY
           (curRadius (g.prePhase now r)) (Obstacle.update o).rect = true))
  ∧ ((playTick g now r).state = GState.GameOver ∨
      (playTick g now r).state = GState.Play)
  ∧ (∀ g2 : Game, g2.state ≠ GState.Play → playTick g2 now r = g2)
  ∧ (∀ bx bY rr : Int, ∀ rc : Rect, 0 ≤ rc.w → 0 ≤ rc.h → 0 ≤ rr →
      collisionCheck bx bY rr rc = collidesPlain bx bY rr rc) := by
  have hpt : playTick g now r = ((g.prePhase now r).obstacleStep now).timerStep now := by
    unfold playTick; rw [if_pos hplay]
  have hany : ((g.obstacles.map Obstacle.update).any
      (fun o => collisionCheck (g.prePhase now r).ballX (g.prePhase now r).ballY
        (curRadius (g.prePhase now r)) o.rect) = true) ↔
      (∃ o ∈ g.obstacles,
        collidesPlain (g.prePhase now r).ballX (g.prePhase now r).ballY
          (curRadius (g.prePhase now r)) (Obstacle.update o).rect = true) := by
    rw [List.any_map, List.any_eq_true]
    constructor
    · rintro ⟨o, ho, hc⟩
      refine ⟨o, ho, ?_⟩
      rw [← collisionCheck_eq_collidesPlain _ _ _ _ ?_ ?_ hrad]
      · exact hc
      · rw [update_rect_w]; exact (hdims o ho).1
      · rw [update_rect_h]; exact (hdims o ho).2
    · rintro ⟨o, ho, hc⟩
      refine ⟨o, ho, ?_⟩
      rw [Function.comp_apply, collisionCheck_eq_collidesPlain _ _ _ _ ?_ ?_ hrad]
      · exact hc
      · rw [update_rect_w]; exact (hdims o ho).1
      · rw [update_rect_h]; exact (hdims o ho).2
  refine ⟨?_, ?_, ?_, ?_⟩
  · rw [hpt, timerStep_state, obstacleStep_state, obstacleStep_startTime,
      prePhase_startTime, prePhase_obstacles, prePhase_state, hplay]
    by_cases ht : GAME_DURATION ≤ now - g.startTime
    · simp [ht]
    · rw [if_neg ht]
      by_cases hp : (∃ o ∈ g.obstacles,
          collidesPlain (g.prePhase now r).ballX (g.prePhase now r).ballY
            (curRadius (g.prePhase now r)) (Obstacle.update o).rect = true)
      · rw [if_pos (hany.mpr hp)]
        simp [ht, hp]
      · rw [if_neg (fun hc => hp (hany.mp hc))]
        simp [ht, hp]
  · rw [hpt, timerStep_state, obstacleStep_state, prePhase_state, hplay]
    split_ifs <;> simp
  · intro g2 h2
    unfold playTick
    rw [if_neg h2]
  · intro bx bY rr rc h1 h2 h3
    exact collisionCheck_eq_collidesPlain bx bY rr rc h1 h2 h3

/-- A round used to witness C2: Play state, no obstacles, round clock
started at 0. -/
def c2game : Game :=
  { baseGame with state := GState.Play, startTime := 0 }

/-- **C2 witness**: at wall-clock 100 with the round started at 0, the
tick transitions to GameOver via the timer disjunct. -/
theorem c2_play_to_gameover_witness :
    (playTick c2game 100 ⟨0, 0, 0⟩).state = GState.GameOver := by
  have h := c2_play_to_gameover c2game 100 ⟨0, 0, 0⟩ rfl (by simp [c2game, baseGame])
    (by decide)
  exact h.1.mpr (Or.inl (by norm_num [c2game, baseGame, GAME_DURATION]))

/-- **C3 (amended).** `get_latest` is a total (hence non-blocking)
function: on an empty FIFO it returns no line and leaves the FIFO empty;
otherwise it returns the most recently pushed line (the last element)
and removes exactly that line — older lines remain in the FIFO, so a
later call may return a line pushed earlier than one already consumed. -/
theorem c3_get_latest_amended :
    (∀ q : List String, getLatest q = (q.getLast?, q.dropLast))
  ∧ (∀ (q : List String) (l : String), (getLatest (pushLine q l)).1 = some l) := by
  have hmain : ∀ q : List String, getLatest q = (q.getLast?, q.dropLast) := by
    intro q
    unfold getLatest
    cases hq : q.getLast? with
    | none => rw [List.getLast?_eq_none_iff.mp hq]; rfl
    | some x => rfl
  refine ⟨hmain, ?_⟩
  intro q l
  rw [hmain]
  show (pushLine q l).getLast? = some l
  simp only [pushLine]
  split_ifs with h
  · have hlen : (q ++ [l]).length = q.length + 1 := by simp
    have hk : (q ++ [l]).length - QUEUE_MAXLEN ≤ q.length := by
      simp only [hlen, QUEUE_MAXLEN]; omega
    rw [List.drop_append_of_le_length hk]
    exact List.getLast?_concat _
  · exact List.getLast?_concat _

/-- **C3 counterexample.** After pushing "a" then "b", `get_latest`
returns "b"; the claim says intermediate older lines are silently
dropped, so the next call should find the FIFO empty — but the code
returns "a", a line pushed earlier than the already-consumed "b". -/
theorem c3_counterexample :
    (getLatest (pushLine (pushLine [] "a") "b")).1 = some "b"
  ∧ (getLatest ((getLatest (pushLine (pushLine [] "a") "b")).2)).1 = some "a" := by
  decide

/-- **C6.** The parser contract: the five example lines of the spec,
plus the general shape — fewer than 3 (nonempty, stripped) tokens fail;
any unparseable first-three token fails; otherwise ax, ay, az come from
the first three tokens, a fourth token gives the button when it parses
and leaves it absent when it does not, and tokens beyond the fourth are
ignored (only the head of the remainder is consulted). -/
theorem c6_parser_contract :
    parse_serial_line "100,-200,300" = some ⟨100, -200, 300, none⟩
  ∧ parse_serial_line "1,2,3,1" = some ⟨1, 2, 3, some 1⟩
  ∧ parse_serial_line "1,2" = none
  ∧ parse_serial_line "a,2,3" = none
  ∧ parse_serial_line "1,2,3,x" = some ⟨1, 2, 3, none⟩
  ∧ (∀ line, (serialTokens line).length < 3 → parse_serial_line line = none)
  ∧ (∀ line p0 p1 p2 rest, serialTokens line = p0 :: p1 :: p2 :: rest →
      (parseInt? p0 = none ∨ parseInt? p1 = none ∨ parseInt? p2 = none) →
      parse_serial_line line = none)
  ∧ (∀ line p0 p1 p2 rest a0 a1 a2, serialTokens line = p0 :: p1 :: p2 :: rest →
      parseInt? p0 = some a0 → parseInt? p1 = some a1 → parseInt? p2 = some a2 →
      parse_serial_line line =
        some { ax := a0, ay := a1, az := a2,
               btn := match rest with | p3 :: _ => parseInt? p3 | [] => none }) := by
  refine ⟨by decide, by decide, by decide, by decide, by decide, ?_, ?_, ?_⟩
  · intro line h
    simp only [parse_serial_line]
    rcases hs : serialTokens line with _ | ⟨p0, _ | ⟨p1, _ | ⟨p2, rest⟩⟩⟩
    · rfl
    · rfl
    · rfl
    · exact absurd h (by rw [hs]; simp only [List.length_cons]; omega)
  · intro line p0 p1 p2 rest hs hbad
    simp only [parse_serial_line, hs]
    rcases hbad with h | h | h
    · rw [h]
    · rw [h]; all_goals cases parseInt? p0 <;> cases parseInt? p2 <;> rfl
    · rw [h]; all_goals cases parseInt? p0 <;> cases parseInt? p1 <;> rfl
  · intro line p0 p1 p2 rest a0 a1 a2 hs h0 h1 h2
    simp only [parse_serial_line, hs, h0, h1, h2]

/-- **C9.** Threshold mapping for valid samples: `ax` strictly above
2000 gives `+BALL_SPEED`, strictly below −2000 gives `-BALL_SPEED`, and
`|ax| ≤ 2000` (equality included) gives 0; same for `ay` with the
vertical sign inverted (positive tilt moves up, i.e. negative delta). -/
theorem c9_threshold_mapping :
    (∀ ax : Int, (AX_POS_THRESHOLD < ax → sensorDX ax = BALL_SPEED)
      ∧ (ax < AX_NEG_THRESHOLD → sensorDX ax = -BALL_SPEED)
      ∧ (|ax| ≤ AX_POS_THRESHOLD → sensorDX ax = 0))
  ∧ (∀ ay : Int, (AY_POS_THRESHOLD < ay → sensorDY ay = -BALL_SPEED)
      ∧ (ay < AY_NEG_THRESHOLD → sensorDY ay = BALL_SPEED)
      ∧ (|ay| ≤ AY_POS_THRESHOLD → sensorDY ay = 0)) := by
  constructor
  · intro a
    refine ⟨fun h => ?_, fun h => ?_, fun h => ?_⟩
    · simp only [sensorDX]; rw [if_pos h]
    · simp only [sensorDX, AX_POS_THRESHOLD, AX_NEG_THRESHOLD] at *
      rw [if_neg (by omega), if_pos h]
    · rw [abs_le] at h
      simp only [sensorDX, AX_POS_THRESHOLD, AX_NEG_THRESHOLD] at *
      rw [if_neg (by omega), if_neg (by omega)]
  · intro a
    refine ⟨fun h => ?_, fun h => ?_, fun h => ?_⟩
    · simp only [sensorDY]; rw [if_pos h]
    · simp only [sensorDY, AY_POS_THRESHOLD, AY_NEG_THRESHOLD] at *
      rw [if_neg (by omega), if_pos h]
    · rw [abs_le] at h
      simp only [sensorDY, AY_POS_THRESHOLD, AY_NEG_THRESHOLD] at *
      rw [if_neg (by omega), if_neg (by omega)]

/-- **C9 witness** at the spec's boundary examples. -/
theorem c9_threshold_mapping_witness :
    sensorDX 2001 = BALL_SPEED ∧ sensorDX (-2001) = -BALL_SPEED ∧ sensorDX 1999 = 0
  ∧ sensorDY 2001 = -BALL_SPEED ∧ sensorDY (-2001) = BALL_SPEED ∧ sensorDY 2000 = 0 :=
  ⟨(c9_threshold_mapping.1 2001).1 (by decide),
   (c9_threshold_mapping.1 (-2001)).2.1 (by decide),
   (c9_threshold_mapping.1 1999).2.2 (by decide),
   (c9_threshold_mapping.2 2001).1 (by decide),
   (c9_threshold_mapping.2 (-2001)).2.1 (by decide),
   (c9_threshold_mapping.2 2000).2.2 (by decide)⟩

/-- **C10.** The character index starts at 0 and stays strictly below
the fixed character count (3) across every switch, and a switch firing
from the last index (2) wraps to 0. -/
theorem c10_char_index_bounds :
    baseGame.sw.currentChar = 0
  ∧ charCount = charactersInit.length
  ∧ baseGame.chars = charactersInit
  ∧ (∀ (st : SwitchState) (b : Option Int) (a : Int) (t : ℚ),
      st.currentChar < charCount → (processSwitch st b a t).currentChar < charCount)
  ∧ (∀ (st : SwitchState) (a : Int) (t : ℚ),
      st.currentChar = charCount - 1 → SWITCH_DEBOUNCE < t - st.lastSwitch →
      (processSwitch st (some 1) a t).currentChar = 0) := by
  refine ⟨rfl, by decide, rfl, ?_, ?_⟩
  · intro st b a t h
    unfold processSwitch processSwitchF
    split_ifs <;> simp only [] <;>
      first
      | exact h
      | exact Nat.mod_lt _ (by norm_num [charCount])
  · intro st a t h1 h2
    unfold processSwitch processSwitchF
    rw [if_pos ⟨rfl, h2⟩]
    simp only []
    rw [h1]
    decide

/-- **C10 witness**: a concrete in-range step and a concrete wrap. -/
theorem c10_char_index_bounds_witness :
    (processSwitch ⟨0, 0⟩ none 0 0).currentChar < charCount
  ∧ (processSwitch ⟨2, 0⟩ (some 1) 0 1).currentChar = 0 :=
  ⟨c10_char_index_bounds.2.2.2.1 ⟨0, 0⟩ none 0 0 (by decide),
   c10_char_index_bounds.2.2.2.2 ⟨2, 0⟩ 0 1 (by decide)
     (by norm_num [SWITCH_DEBOUNCE, Rat.mkRat_eq_div])⟩

/-- `setRadius` updates exactly the addressed entry. -/
theorem setRadius_get? (cs : List Character) (i : Nat) (v : Int) :
    (setRadius cs i v).get? i = (cs.get? i).map (fun c => { c with radius := v }) := by
  induction cs generalizing i with
  | nil => cases i <;> rfl
  | cons c cs ih =>
    cases i with
    | zero => rfl
    | succ n =>
      show (c :: setRadius cs n v).get? (n + 1) = _
      rw [List.get?_cons_succ]
      exact ih n

/-- Reading back the radius just written at an in-bounds index. -/
theorem radiusAt_setRadius (cs : List Character) (i : Nat) (v : Int)
    (h : i < cs.length) : radiusAt (setRadius cs i v) i = v := by
  unfold radiusAt
  rw [setRadius_get?]
  cases hq : cs.get? i with
  | none => exact absurd (List.get?_eq_none.mp hq) (by omega)
  | some c => rfl

/-- `random.randint(lo, hi)` stays in the inclusive range. -/
theorem randint_range (lo hi : Int) (s : Nat) (h : lo ≤ hi) :
    lo ≤ randint lo hi s ∧ randint lo hi s ≤ hi := by
  unfold randint
  have h2 : s % (hi - lo + 1).toNat < (hi - lo + 1).toNat := Nat.mod_lt _ (by omega)
  omega

/-- **C5.** In Play, whenever the ball-coin center distance is below
the current radius plus the coin radius (squared form of the source's
float comparison), the coin is collected this tick: a special coin
gives +5 points, arms the power-up until `now + 6.0` and sets the
current character's radius to base+8; an ordinary coin gives +1 point
and leaves radius and power flag alone. Either way the respawned coin
lies in `[COIN_RADIUS, dim - COIN_RADIUS]` on each axis and its special
flag is re-rolled against the 18% threshold. -/
theorem c5_coin_pickup (g : Game) (now : ℚ) (r : TickRand)
    (hcur : g.sw.currentChar < g.chars.length)
    (hd : sqDist g.ballX g.ballY g.coinX g.coinY < (curRadius g + COIN_RADIUS) ^ 2) :
    (g.coinSpecial = true →
        (g.coinStep now r).score = g.score + 5
      ∧ (g.coinStep now r).powerActive = true
      ∧ (g.coinStep now r).powerEndsAt = now + POWERUP_DURATION
      ∧ curRadius (g.coinStep now r) = BALL_RADIUS + 8)
  ∧ (g.coinSpecial = false →
        (g.coinStep now r).score = g.score + 1
      ∧ (g.coinStep now r).powerActive = g.powerActive
      ∧ curRadius (g.coinStep now r) = curRadius g)
  ∧ COIN_RADIUS ≤ (g.coinStep now r).coinX
  ∧ (g.coinStep now r).coinX ≤ WIDTH - COIN_RADIUS
  ∧ COIN_RADIUS ≤ (g.coinStep now r).coinY
  ∧ (g.coinStep now r).coinY ≤ HEIGHT - COIN_RADIUS
  ∧ (g.coinStep now r).coinSpecial = decide (r.u < POWERUP_CHANCE) := by
  have hx := randint_range COIN_RADIUS (WIDTH - COIN_RADIUS) r.cx
    (by norm_num [COIN_RADIUS, WIDTH])
  have hy := randint_range COIN_RADIUS (HEIGHT - COIN_RADIUS) r.cy
    (by norm_num [COIN_RADIUS, HEIGHT])
  by_cases hsp : g.coinSpecial
  · have hstep : g.coinStep now r = { g with
        score := g.score + 5
        powerActive := true
        powerEndsAt := now + POWERUP_DURATION
        chars := setRadius g.chars g.sw.currentChar (BALL_RADIUS + 8)
        coinX := randint COIN_RADIUS (WIDTH - COIN_RADIUS) r.cx
        coinY := randint COIN_RADIUS (HEIGHT - COIN_RADIUS) r.cy
        coinSpecial := decide (r.u < POWERUP_CHANCE) } := by
      simp only [Game.coinStep]
      rw [if_pos hd, if_pos hsp]
    rw [hstep]
    exact ⟨fun _ => ⟨rfl, rfl, rfl, radiusAt_setRadius _ _ _ hcur⟩,
      fun hn => absurd hsp (by simp [hn]), hx.1, hx.2, hy.1, hy.2, rfl⟩
  · rw [Bool.not_eq_true] at hsp
    have hstep : g.coinStep now r = { g with
        score := g.score + 1
        coinX := randint COIN_RADIUS (WIDTH - COIN_RADIUS) r.cx
        coinY := randint COIN_RADIUS (HEIGHT - COIN_RADIUS) r.cy
        coinSpecial := decide (r.u < POWERUP_CHANCE) } := by
      simp only [Game.coinStep]
      rw [if_pos hd, if_neg (by simp [hsp])]
    rw [hstep]
    exact ⟨fun hn => by simp [hsp] at hn, fun _ => ⟨rfl, rfl, rfl⟩,
      hx.1, hx.2, hy.1, hy.2, rfl⟩

/-- A Play-state game with the ball sitting on a special coin. -/
def c5game : Game :=
  { baseGame with
    state := GState.Play
    ballX := 450
    ballY := 300
    coinX := 450
    coinY := 300
    coinSpecial := true }

/-- **C5 witness**: concrete special pickup. -/
theorem c5_coin_pickup_witness :
    curRadius (c5game.coinStep 2 ⟨0, 0, 1⟩) = BALL_RADIUS + 8 ∧
    (c5game.coinStep 2 ⟨0, 0, 1⟩).score = c5game.score + 5 :=
  have h := c5_coin_pickup c5game 2 ⟨0, 0, 1⟩ (by decide) (by decide)
  ⟨(h.1 rfl).2.2.2, (h.1 rfl).1⟩

/-- **C7 counterexample.** Three button presses at times 1, 1.2 and 1.4
(from a fresh switch state): the press at 1 switches; the presses at 1.2
and 1.4 are both switch-eligible and strictly less than 0.5s apart, yet
produce zero character changes between them (both are debounced by the
switch at 1), refuting "every such pair produces exactly one change". -/
theorem c7_counterexample :
    ((7 : ℚ)/5 - 6/5 < SWITCH_DEBOUNCE)
  ∧ (processSwitchF (processSwitch ⟨0, 0⟩ (some 1) 0 1) (some 1) 0 (6/5)).2 = false
  ∧ (processSwitchF (processSwitch (processSwitch ⟨0, 0⟩ (some 1) 0 1) (some 1) 0 (6/5))
       (some 1) 0 (7/5)).2 = false
  ∧ (processSwitch ⟨0, 0⟩ (some 1) 0 1).currentChar = 1 := by
  have h1 : processSwitch ⟨0, 0⟩ (some 1) 0 1 = ⟨1, 1⟩ := by
    simp only [processSwitch, processSwitchF, charCount]
    norm_num [SWITCH_DEBOUNCE, Rat.mkRat_eq_div]
  have h2 : processSwitchF (⟨1, 1⟩ : SwitchState) (some 1) 0 (6/5) = (⟨1, 1⟩, false) := by
    simp only [processSwitchF]
    norm_num [SWITCH_DEBOUNCE, Rat.mkRat_eq_div, SHAKE_THRESHOLD]
  have h3 : processSwitchF (⟨1, 1⟩ : SwitchState) (some 1) 0 (7/5) = (⟨1, 1⟩, false) := by
    simp only [processSwitchF]
    norm_num [SWITCH_DEBOUNCE, Rat.mkRat_eq_div, SHAKE_THRESHOLD]
  refine ⟨by norm_num [SWITCH_DEBOUNCE, Rat.mkRat_eq_div], ?_, ?_, by rw [h1]⟩
  · rw [h1, h2]
  · rw [h1]
    have h4 : processSwitch (⟨1, 1⟩ : SwitchState) (some 1) 0 (6/5) = ⟨1, 1⟩ := by
      simp only [processSwitch]; rw [h2]
    rw [h4, h3]

/-- **C7 (amended).** Two switch-eligible events strictly less than
0.5s apart produce at most one character change, and exactly one when
the debounce interval had already elapsed before the first event; a
successful switch advances the index cyclically by one and resets the
debounce timestamp, and a firing button trigger preempts the shake
trigger (the single advance is the same whatever `az` is). -/
theorem c7_debounce_amended (st : SwitchState) (b1 b2 : Option Int) (a1 a2 : Int)
    (t1 t2 : ℚ)
    (he1 : b1 = some 1 ∨ SHAKE_THRESHOLD < |a1|)
    (he2 : b2 = some 1 ∨ SHAKE_THRESHOLD < |a2|)
    (hgap : t2 - t1 < SWITCH_DEBOUNCE) :
    ((if (processSwitchF st b1 a1 t1).2 then 1 else 0)
      + (if (processSwitchF (processSwitch st b1 a1 t1) b2 a2 t2).2 then 1 else 0) ≤ 1)
  ∧ (SWITCH_DEBOUNCE < t1 - st.lastSwitch →
      (processSwitchF st b1 a1 t1).2 = true
      ∧ (processSwitchF (processSwitch st b1 a1 t1) b2 a2 t2).2 = false
      ∧ (processSwitch st b1 a1 t1).currentChar = (st.currentChar + 1) % charCount
      ∧ (processSwitch st b1 a1 t1).lastSwitch = t1)
  ∧ (∀ (b : Option Int) (a : Int) (t : ℚ), b = some 1 →
      SWITCH_DEBOUNCE < t - st.lastSwitch →
      (processSwitch st b a t).currentChar = (st.currentChar + 1) % charCount
      ∧ (processSwitch st b a t).lastSwitch = t) := by
  have hstep : ∀ (s : SwitchState) (b : Option Int) (a : Int) (t : ℚ),
      (processSwitchF s b a t).2 = true → (processSwitchF s b a t).1.lastSwitch = t := by
    intro s b a t h
    unfold processSwitchF at *
    split_ifs at h ⊢ <;> simp_all
  have hfire : ∀ (s : SwitchState) (b : Option Int) (a : Int) (t : ℚ),
      (b = some 1 ∨ SHAKE_THRESHOLD < |a|) → SWITCH_DEBOUNCE < t - s.lastSwitch →
      (processSwitchF s b a t).2 = true
      ∧ (processSwitchF s b a t).1 = ⟨(s.currentChar + 1) % charCount, t⟩ := by
    intro s b a t he hdeb
    unfold processSwitchF
    rcases he with he | he
    · rw [if_pos ⟨he, hdeb⟩]; exact ⟨rfl, rfl⟩
    · by_cases hb : b = some 1 ∧ SWITCH_DEBOUNCE < t - s.lastSwitch
      · rw [if_pos hb]; exact ⟨rfl, rfl⟩
      · rw [if_neg hb, if_pos ⟨he, hdeb⟩]; exact ⟨rfl, rfl⟩
  have hnofire : ∀ (s : SwitchState) (b : Option Int) (a : Int) (t : ℚ),
      ¬ (SWITCH_DEBOUNCE < t - s.lastSwitch) → (processSwitchF s b a t).2 = false := by
    intro s b a t hdeb
    unfold processSwitchF
    rw [if_neg (fun hc => hdeb hc.2), if_neg (fun hc => hdeb hc.2)]
  refine ⟨?_, ?_, ?_⟩
  · by_cases hf1 : (processSwitchF st b1 a1 t1).2 = true
    · have hls : (processSwitch st b1 a1 t1).lastSwitch = t1 := hstep _ _ _ _ hf1
      have hblocked : (processSwitchF (processSwitch st b1 a1 t1) b2 a2 t2).2 = false := by
        apply hnofire
        rw [hls]
        intro hc
        exact absurd hgap (not_lt.mpr (le_of_lt hc))
      rw [hf1, hblocked]
      norm_num
    · rw [Bool.not_eq_true] at hf1
      rw [hf1]
      split_ifs <;> simp_all
  · intro hdeb
    have h1 := hfire st b1 a1 t1 he1 hdeb
    have hls : (processSwitch st b1 a1 t1).lastSwitch = t1 := by
      unfold processSwitch; rw [h1.2]
    refine ⟨h1.1, ?_, ?_, hls⟩
    · apply hnofire
      rw [hls]
      intro hc
      exact absurd hgap (not_lt.mpr (le_of_lt hc))
    · unfold processSwitch; rw [h1.2]
  · intro b a t hb hdeb
    have h1 := hfire st b a t (Or.inl hb) hdeb
    unfold processSwitch
    rw [h1.2]
    exact ⟨rfl, rfl⟩

/-- **C7 witness**: a pair 0.3s apart after an open debounce window
produces exactly one switch. -/
theorem c7_debounce_amended_witness :
    (processSwitchF ⟨0, 0⟩ (some 1) 0 1).2 = true
  ∧ (processSwitchF (processSwitch ⟨0, 0⟩ (some 1) 0 1) (some 1) 0 (13/10)).2 = false :=
  have h := (c7_debounce_amended ⟨0, 0⟩ (some 1) (some 1) 0 0 1 (13/10)
    (Or.inl rfl) (Or.inl rfl)
    (by norm_num [SWITCH_DEBOUNCE, Rat.mkRat_eq_div])).2.1
    (by norm_num [SWITCH_DEBOUNCE, Rat.mkRat_eq_div])
  ⟨h.1, h.2.1⟩

/-- **C6 witness**: the short-line failure and a 5-token line (the fifth
token is ignored). -/
theorem c6_parser_contract_witness :
    parse_serial_line "9,9" = none
  ∧ parse_serial_line "7,8,9,2,111" = some ⟨7, 8, 9, some 2⟩ :=
  ⟨c6_parser_contract.2.2.2.2.2.1 "9,9" (by decide),
   c6_parser_contract.2.2.2.2.2.2.2 "7,8,9,2,111" ['7'] ['8'] ['9']
     [['2'], ['1', '1', '1']] 7 8 9 (by decide) (by decide) (by decide) (by decide)⟩

/-- **C8.** Pressing P in Play switches to Pause changing nothing but
the state tag (so score, ball, coin, obstacles, `start_time` and
`power_ends_at` are untouched); a tick in Pause is a complete no-op;
pressing P again restores exactly the Play state; and because the
timestamps survive the round trip, wall-clock time spent paused still
counts: if the resume happens past the 60-second deadline, the very
next tick ends the round. -/
theorem c8_pause_semantics (g : Game) (t1 t2 now : ℚ) (r : TickRand) (ir : InitRand)
    (h : g.state = GState.Play) :
    handleKey g Key.p t1 ir = { g with state := GState.Pause }
  ∧ (∀ gp : Game, gp.state = GState.Pause → playTick gp now r = gp)
  ∧ handleKey (handleKey g Key.p t1 ir) Key.p t2 ir = { g with state := GState.Play }
  ∧ (handleKey (handleKey g Key.p t1 ir) Key.p t2 ir).startTime = g.startTime
  ∧ (handleKey (handleKey g Key.p t1 ir) Key.p t2 ir).powerEndsAt = g.powerEndsAt
  ∧ (GAME_DURATION ≤ now - g.startTime →
      (playTick (handleKey (handleKey g Key.p t1 ir) Key.p t2 ir) now r).state
        = GState.GameOver) := by
  have h1 : handleKey g Key.p t1 ir = { g with state := GState.Pause } := by
    unfold handleKey; rw [h]
  have h3 : handleKey (handleKey g Key.p t1 ir) Key.p t2 ir
      = { g with state := GState.Play } := by
    rw [h1]; rfl
  refine ⟨h1, ?_, h3, by rw [h3], by rw [h3], ?_⟩
  · intro gp hp
    unfold playTick
    rw [hp]
    simp
  · intro ht
    rw [h3]
    unfold playTick
    rw [if_pos rfl, timerStep_state, obstacleStep_startTime, prePhase_startTime]
    rw [if_pos ht]

/-- A Play-state game as `main` creates it (deltas start at 0). -/
def c4game : Game := { baseGame with state := GState.Play }

/-- Only the right arrow held. -/
def rightKey : Keys := { noKeys with right := true }

/-- **C4 (code bug).** Claim says a tick with no (or unparseable)
telemetry applies exactly the keyboard contribution of that tick. The
code resets `move_dx`/`move_dy` only inside the successfully-parsed
branch, so on a telemetry-less tick the previous tick's deltas persist:
after a tick with sensor line "2001,0,0" and no keys, a following tick
with no line and no keys still moves the ball by +BALL_SPEED (first
conjunct), and holding only the right arrow for two telemetry-less
ticks accumulates 2·BALL_SPEED instead of BALL_SPEED (second
conjunct). -/
theorem c4_stale_deltas :
    (processInput (processInput c4game (some "2001,0,0") noKeys 1) none noKeys 2).moveDX = 5
  ∧ (processInput (processInput c4game none rightKey 1) none rightKey 2).moveDX = 10 := by
  constructor
  · rfl
  · rfl

/-! More phase-preservation lemmas, used by the C1 trace. -/

theorem obstacleStep_chars (g : Game) (now : ℚ) : (g.obstacleStep now).chars = g.chars := rfl
theorem obstacleStep_sw (g : Game) (now : ℚ) : (g.obstacleStep now).sw = g.sw := rfl
theorem obstacleStep_powerActive (g : Game) (now : ℚ) :
    (g.obstacleStep now).powerActive = g.powerActive := rfl
theorem timerStep_chars (g : Game) (now : ℚ) : (g.timerStep now).chars = g.chars := by
  unfold Game.timerStep; split_ifs <;> rfl
theorem timerStep_sw (g : Game) (now : ℚ) : (g.timerStep now).sw = g.sw := by
  unfold Game.timerStep; split_ifs <;> rfl
theorem timerStep_powerActive (g : Game) (now : ℚ) :
    (g.timerStep now).powerActive = g.powerActive := by
  unfold Game.timerStep; split_ifs <;> rfl

/-- Truncation of an integer-valued rational is the integer itself. -/
theorem truncToInt_intCast (n : Int) : truncToInt ((n : Int) : ℚ) = n := by
  unfold truncToInt
  simp [Rat.num_intCast, Rat.den_intCast]

/-- Startup randomness for the C1 trace: the coin spawns at the screen
center (where the ball starts), it is special (`u = 0 < 0.18`), and
obstacle 0 spawns overlapping the ball while obstacles 1 and 2 spawn in
the far corner. -/
def c1ir : InitRand :=
  { cx := 435
    cy := 285
    u := 0
    obs := fun i => if i = 0 then ⟨0, 0, 440, 290, true, true, 0, 0⟩
                    else ⟨0, 0, 0, 0, true, true, 0, 0⟩ }

/-- Tick randomness for the C1 trace: the respawned coin goes to the
corner and is not special (`u = 1`). -/
def c1tr : TickRand := { cx := 0, cy := 0, u := 1 }

/-- C1 trace: startup at wall-clock 0. -/
def c1g0 : Game := initialGame 0 c1ir
/-- C1 trace: ENTER in the menu at time 1 starts a round. -/
def c1g1 : Game := handleKey c1g0 Key.ret 1 c1ir
/-- C1 trace: the tick at time 2 collects the special coin (power-up
armed, radius enlarged to 33) and then hits obstacle 0: GameOver with
the power-up still active. -/
def c1g2 : Game := playTick c1g1 2 c1tr
/-- C1 trace: ENTER on the game-over screen at time 3 starts a fresh
round via `init_game`. -/
def c1g3 : Game := handleKey c1g2 Key.ret 3 c1ir

/-- **C1 (code bug).** The spec's invariant "power inactive implies the
current character's radius equals its base radius" is violated on a
reachable trace: a round ends (collision) while the power-up is active
and the radius is `BALL_RADIUS + 8`; restarting from GameOver runs
`init_game`, which clears `power_active` but never restores any
character's radius, leaving `power_active = false` with the current
character's radius still `BALL_RADIUS + 8 ≠ BALL_RADIUS`. -/
theorem c1_radius_leak :
    c1g2.state = GState.GameOver
  ∧ c1g2.powerActive = true
  ∧ curRadius c1g2 = BALL_RADIUS + 8
  ∧ c1g3.state = GState.Play
  ∧ c1g3.powerActive = false
  ∧ curRadius c1g3 = BALL_RADIUS + 8
  ∧ BALL_RADIUS + 8 ≠ BALL_RADIUS := by
  have hps : c1g1.prePhase 2 c1tr = (c1g1.moveBall).coinStep 2 c1tr := by
    unfold Game.prePhase Game.powerStep
    rw [if_neg]
    intro hc
    have hpe : ((c1g1.moveBall).coinStep 2 c1tr).powerEndsAt = 2 + POWERUP_DURATION := rfl
    rw [hpe] at hc
    have h6 := hc.2
    norm_num [POWERUP_DURATION] at h6
  have hvx : (mkObstacle (c1ir.obs 0)).vx = 2 := by
    show choiceSign true * uniform OBSTACLE_MIN_SPEED OBSTACLE_MAX_SPEED 0 = 2
    norm_num [choiceSign, uniform, OBSTACLE_MIN_SPEED, OBSTACLE_MAX_SPEED]
  have hvy : (mkObstacle (c1ir.obs 0)).vy = 2 := by
    show choiceSign true * uniform OBSTACLE_MIN_SPEED OBSTACLE_MAX_SPEED 0 = 2
    norm_num [choiceSign, uniform, OBSTACLE_MIN_SPEED, OBSTACLE_MAX_SPEED]
  have hupd : (Obstacle.update (mkObstacle (c1ir.obs 0))).rect = ⟨442, 292, 30, 30⟩ := by
    have hrx : (mkObstacle (c1ir.obs 0)).rect = ⟨440, 290, 30, 30⟩ := by decide
    unfold Obstacle.update
    rw [hrx, hvx, hvy]
    have h1 : (((440 : Int) : ℚ) + 2) = ((442 : Int) : ℚ) := by push_cast; norm_num
    have h2 : (((290 : Int) : ℚ) + 2) = ((292 : Int) : ℚ) := by push_cast; norm_num
    simp only []
    norm_num [h1, h2, truncToInt_intCast, WIDTH, HEIGHT]
    decide
  have hg2 : c1g2 = ((c1g1.prePhase 2 c1tr).obstacleStep 2).timerStep 2 := rfl
  have hobs : (c1g1.prePhase 2 c1tr).obstacles
      = [mkObstacle (c1ir.obs 0), mkObstacle (c1ir.obs 1), mkObstacle (c1ir.obs 2)] := by
    rw [hps]; rfl
  have hbx : (c1g1.prePhase 2 c1tr).ballX = 450 := by rw [hps]; rfl
  have hby : (c1g1.prePhase 2 c1tr).ballY = 300 := by rw [hps]; rfl
  have hrad : curRadius (c1g1.prePhase 2 c1tr) = 33 := by rw [hps]; decide
  have hhit : ((c1g1.prePhase 2 c1tr).obstacles.map Obstacle.update).any
      (fun o => collisionCheck (c1g1.prePhase 2 c1tr).ballX (c1g1.prePhase 2 c1tr).ballY
        (curRadius (c1g1.prePhase 2 c1tr)) o.rect) = true := by
    rw [hobs, hbx, hby, hrad]
    simp only [List.map_cons, List.map_nil, List.any_cons, List.any_nil]
    rw [hupd]
    have hc0 : collisionCheck 450 300 33 ⟨442, 292, 30, 30⟩ = true := by decide
    rw [hc0]
    simp
  have hnotimer : ¬ (GAME_DURATION ≤ (2 : ℚ)
      - ((c1g1.prePhase 2 c1tr).obstacleStep 2).startTime) := by
    rw [obstacleStep_startTime, prePhase_startTime]
    have hst : c1g1.startTime = 1 := rfl
    rw [hst]
    norm_num [GAME_DURATION]
  have hstate2 : c1g2.state = GState.GameOver := by
    rw [hg2, timerStep_state, if_neg hnotimer, obstacleStep_state, if_pos hhit]
  have hpa2 : c1g2.powerActive = true := by
    rw [hg2, timerStep_powerActive, obstacleStep_powerActive, hps]; rfl
  have hchars2 : c1g2.chars = setRadius charactersInit 0 (BALL_RADIUS + 8) := by
    rw [hg2, timerStep_chars, obstacleStep_chars, hps]; rfl
  have hsw2 : c1g2.sw = ⟨0, 0⟩ := by
    rw [hg2, timerStep_sw, obstacleStep_sw, hps]; rfl
  have hrad2 : curRadius c1g2 = BALL_RADIUS + 8 := by
    unfold curRadius
    rw [hchars2, hsw2]
    decide
  have hg3 : c1g3 = initGame { c1g2 with state := GState.Play } 3 c1ir := by
    show handleKey c1g2 Key.ret 3 c1ir = _
    unfold handleKey
    rw [hstate2]
  have hrad3 : curRadius c1g3 = BALL_RADIUS + 8 := by
    have hc : c1g3.chars = c1g2.chars := by rw [hg3]; rfl
    have hs : c1g3.sw = c1g2.sw := by rw [hg3]; rfl
    unfold curRadius
    rw [hc, hs, hchars2, hsw2]
    decide
  refine ⟨hstate2, hpa2, hrad2, by rw [hg3]; rfl, by rw [hg3]; rfl, hrad3, by decide⟩

/-- A Play-state game with the round clock started at 1, for the C8
witness. -/
def c8game : Game := { baseGame with state := GState.Play, startTime := 1 }

/-- Startup randomness for the C8 witness (contents irrelevant). -/
def c8ir : InitRand := { cx := 0, cy := 0, u := 0, obs := fun _ => ⟨0, 0, 0, 0, true, true, 0, 0⟩ }

set_option maxHeartbeats 1000000 in
/-- **C8 witness**: a concrete pause/resume round trip; the paused tick
changes nothing, and resuming after the deadline ends the round on the
next tick. -/
theorem c8_pause_semantics_witness :
    playTick { c8game with state := GState.Pause } 100 ⟨0, 0, 0⟩
      = { c8game with state := GState.Pause }
  ∧ (playTick (handleKey (handleKey c8game Key.p 2 c8ir) Key.p 3 c8ir) 100 ⟨0, 0, 0⟩).state
      = GState.GameOver := by
  have h := c8_pause_semantics c8game 2 3 100 ⟨0, 0, 0⟩ c8ir rfl
  have hdl : GAME_DURATION ≤ (100 : ℚ) - c8game.startTime := by
    have hst : c8game.startTime = 1 := rfl
    rw [hst]
    norm_num [GAME_DURATION]
  exact ⟨h.2.1 _ rfl, h.2.2.2.2.2 hdl⟩
